import Mathlib

/-!
Verification development for the aos_servicemanager repository.

The definitions below are shallow embeddings of the Go source:
the device resource manager (resourcemanager package), the launcher
(install/uninstall actions and status emission), the sqlite-backed
service table lookup (database package), the amqp desired-set
processing (servicemanager main), and the per-key action queue
(modelled from the specification, as its implementation is not in
the source tree).

Go maps are modelled as association lists in insertion order (a Go
map read of a missing key yields the zero value, here the empty
list); Go slices as Lean lists; machine integers as Int or Nat where
overflow cannot occur for the quantities involved; fallible Go
functions as Except values.  Filesystem, systemd and network side
effects are outside the state; functions that only read or write the
modelled state are embedded exactly, branch by branch.
-/

/-! ## Go string helpers

strings.Contains(s, sub) from the Go standard library: sub occurs
somewhere in s.  Embedded on character lists. -/

/-- charsMatch sub l is true when sub is an initial segment of l. -/
def charsMatch : List Char → List Char → Bool
  | [], _ => true
  | _ :: _, [] => false
  | c :: cs, d :: ds => c == d && charsMatch cs ds

/-- hasSubList l sub is true when sub occurs contiguously inside l. -/
def hasSubList : List Char → List Char → Bool
  | [], sub => sub.isEmpty
  | c :: t, sub => charsMatch sub (c :: t) || hasSubList t sub

/-- strContains s sub embeds Go strings.Contains(s, sub). -/
def strContains (s sub : String) : Bool :=
  hasSubList s.toList sub.toList

theorem charsMatch_refl (l : List Char) : charsMatch l l = true := by
  induction l with
  | nil => rfl
  | cons c t ih => simp [charsMatch, ih]

theorem strContains_refl (s : String) : strContains s s = true := by
  unfold strContains
  cases h : s.toList with
  | nil => simp [hasSubList, List.isEmpty]
  | cons c t => simp [hasSubList, charsMatch_refl]

/-! ## Device resource manager (package resourcemanager)

Embeds the state of ResourceManager and the functions New,
AreResourcesValid, RequestDevice, ReleaseDevice,
validateDeviceResources, isAvailableResourcesChecked,
getAvailableDeviceByName, contains and removeFromSlice. -/

/-- DeviceResource from the resource configuration file. -/
structure DeviceResource where
  name : String
  sharedCount : Int
  groups : List String
  hostDevices : List String
deriving DecidableEq, Repr

/-- AvailableResources: the parsed resource configuration. -/
structure AvailableResources where
  devices : List DeviceResource
deriving DecidableEq, Repr

/-- ResourceManager state: grants map (deviceWithServices), discovered
host devices and groups, parsed configuration, and the validation
verdict cached by New (none means valid). -/
structure ResourceManager where
  deviceWithServices : List (String × List String)
  hostDevices : List String
  hostGroups : List String
  availableResources : AvailableResources
  areResourcesValid : Option String
deriving DecidableEq, Repr

/-- mapGet embeds a Go map read: the zero value [] for a missing key. -/
def mapGet (m : List (String × List String)) (k : String) : List String :=
  match m with
  | [] => []
  | (k2, v) :: t => if k2 = k then v else mapGet t k

/-- mapSet embeds a Go map write. -/
def mapSet (m : List (String × List String)) (k : String) (v : List String) :
    List (String × List String) :=
  match m with
  | [] => [(k, v)]
  | (k2, v2) :: t => if k2 = k then (k, v) :: t else (k2, v2) :: mapSet t k v

/-- contains from the source: true when some element of arr contains
str as a substring (strings.Contains(a, str)) — not an equality test. -/
def containsGo (arr : List String) (str : String) : Bool :=
  arr.any (fun a => strContains a str)

/-- removeFromSlice from the source: drops the first element exactly
equal to str, keeping the rest. -/
def removeFromSlice : List String → String → List String
  | [], _ => []
  | a :: t, str => if a = str then t else a :: removeFromSlice t str

/-- getAvailableDeviceByName from the source: the first declared
device whose Name is a substring of the requested name
(strings.Contains(name, deviceResource.Name)). -/
def getAvailableDeviceByName (avail : AvailableResources) (name : String) :
    Option DeviceResource :=
  avail.devices.find? (fun r => strContains name r.name)

/-- isAvailableResourcesChecked from the source: a declaration is
loaded iff the parsed device list is nonempty. -/
def isAvailableResourcesChecked (rm : ResourceManager) : Bool :=
  rm.availableResources.devices.length != 0

/-- Error outcomes of the resource manager, named after the messages
in the source. -/
inductive DevErr where
  /-- resource configuration is not provided -/
  | resourcesNotProvided
  /-- device is not presented at available resources -/
  | deviceNotPresented
  /-- device is unavailable -/
  | unavailable
  /-- device was not provided for this service -/
  | notProvidedForService
deriving DecidableEq, Repr

/-- RequestDevice from the source, returning the updated manager on
success. -/
def RequestDevice (rm : ResourceManager) (device serviceID : String) :
    Except DevErr ResourceManager :=
  if !(isAvailableResourcesChecked rm) then .error .resourcesNotProvided
  else
    match getAvailableDeviceByName rm.availableResources device with
    | none => .error .deviceNotPresented
    | some deviceResource =>
      let listOfServices := mapGet rm.deviceWithServices device
      if deviceResource.sharedCount = 0 ∨
          (listOfServices.length : Int) < deviceResource.sharedCount then
        if containsGo listOfServices serviceID then
          .ok rm
        else
          let m2 := mapSet rm.deviceWithServices device (listOfServices ++ [serviceID])
          .ok { rm with deviceWithServices := m2 }
      else .error .unavailable

/-- ReleaseDevice from the source. -/
def ReleaseDevice (rm : ResourceManager) (device serviceID : String) :
    Except DevErr ResourceManager :=
  if !(isAvailableResourcesChecked rm) then .error .resourcesNotProvided
  else
    match getAvailableDeviceByName rm.availableResources device with
    | none => .error .deviceNotPresented
    | some _ =>
      let listOfServices := mapGet rm.deviceWithServices device
      if containsGo listOfServices serviceID then
        let m2 := mapSet rm.deviceWithServices device (removeFromSlice listOfServices serviceID)
        .ok { rm with deviceWithServices := m2 }
      else .error .notProvidedForService

/-- validateDeviceResources from the source: no declaration loaded
yields the not-provided error; otherwise every declared host device
and group must occur (by the substring test contains) among the
discovered ones, else the not-valid error. -/
def validateDeviceResources (rm : ResourceManager) : Option String :=
  if !(isAvailableResourcesChecked rm) then
    some "resource configuration is not provided"
  else
    let deviceHasError : DeviceResource → Bool := fun d =>
      d.hostDevices.any (fun hd => !(containsGo rm.hostDevices hd)) ||
      d.groups.any (fun g => !(containsGo rm.hostGroups g))
    if rm.availableResources.devices.any deviceHasError then
      some "device resources are not valid"
    else none

/-- rmNew embeds New: device and group discovery may fail (their
results are passed in as Except values); a missing or unparseable
configuration file (parsedConfig = none) is only logged, leaving the
zero-value AvailableResources; the validation verdict is computed
once and cached; the grants map starts empty. -/
def rmNew (discoveredDevices : Except String (List String))
    (discoveredGroups : Except String (List String))
    (parsedConfig : Option AvailableResources) : Except String ResourceManager :=
  match discoveredDevices with
  | .error e => .error e
  | .ok hostDevices =>
    match discoveredGroups with
    | .error e => .error e
    | .ok hostGroups =>
      let avail := parsedConfig.getD { devices := [] }
      let rm0 : ResourceManager :=
        { deviceWithServices := []
          hostDevices := hostDevices
          hostGroups := hostGroups
          availableResources := avail
          areResourcesValid := none }
      .ok { rm0 with areResourcesValid := validateDeviceResources rm0 }

/-- AreResourcesValid from the source: returns the cached verdict. -/
def AreResourcesValid (rm : ResourceManager) : Option String :=
  rm.areResourcesValid

/-- One client operation against the resource manager. -/
inductive DevOp where
  | request (device serviceID : String)
  | release (device serviceID : String)
deriving DecidableEq, Repr

/-- applyDevOp performs one operation; a failed operation leaves the
state unchanged (the source returns before mutating). -/
def applyDevOp (rm : ResourceManager) (op : DevOp) : ResourceManager :=
  match op with
  | .request d s => match RequestDevice rm d s with
    | .ok rm2 => rm2
    | .error _ => rm
  | .release d s => match ReleaseDevice rm d s with
    | .ok rm2 => rm2
    | .error _ => rm

/-- runDevOps folds a sequence of operations from a starting state. -/
def runDevOps (rm : ResourceManager) (ops : List DevOp) : ResourceManager :=
  ops.foldl applyDevOp rm

/-- rmInit is the manager state right after a successful New with a
parsed configuration: empty grants map. -/
def rmInit (hostDevices hostGroups : List String) (avail : AvailableResources) :
    ResourceManager :=
  { deviceWithServices := []
    hostDevices := hostDevices
    hostGroups := hostGroups
    availableResources := avail
    areResourcesValid :=
      validateDeviceResources
        { deviceWithServices := []
          hostDevices := hostDevices
          hostGroups := hostGroups
          availableResources := avail
          areResourcesValid := none } }

/-! ## Launcher (package launcher)

Embeds the store-level behaviour of installService, uninstallService,
doActionInstall, doActionUninstall, updateService, addService,
addServiceToCurrentUsers and stopServices from launcher.go.  The
service store (the ServiceProvider collaborator) keeps one record per
service ID; the users-services table keeps (users, serviceID)
associations.  Filesystem, download, systemd and monitor effects are
outside the modelled state; in this model they succeed, so every
failure of the modelled functions comes from the checks that the
source performs before any mutation. -/

/-- ServiceInfoFromCloud: the fields of the desired entry the
launcher decisions read. -/
structure ServiceInfoFromCloud where
  id : String
  version : Nat
deriving DecidableEq, Repr

/-- LService: the stored service record fields the claims are about. -/
structure LService where
  id : String
  version : Nat
deriving DecidableEq, Repr

/-- Status event sent through Sender.SendServiceStatus. -/
structure StatusEvent where
  id : String
  version : Nat
  status : String
deriving DecidableEq, Repr

/-- LauncherState: current users (nil = unset), the cached device
validation verdict, the service store and the users-services table. -/
structure LauncherState where
  users : Option (List String)
  resourcesError : Option String
  services : List LService
  usersServices : List (List String × String)
deriving DecidableEq, Repr

/-- getServiceL embeds ServiceProvider.GetService: the record for the
identifier, or a not-exist result. -/
def getServiceL (st : LauncherState) (id : String) : Option LService :=
  st.services.find? (fun s => s.id == id)

/-- addServiceStore embeds ServiceProvider.AddService. -/
def addServiceStore (st : LauncherState) (svc : LService) : LauncherState :=
  { st with services := st.services ++ [svc] }

/-- updateServiceStore embeds ServiceProvider.UpdateService: replaces
the record with the same ID. -/
def updateServiceStore (st : LauncherState) (svc : LService) : LauncherState :=
  { st with services := st.services.map (fun s => if s.id == svc.id then svc else s) }

/-- usersServiceHas embeds ServiceProvider.GetUsersService
succeeding: the association is present. -/
def usersServiceHas (st : LauncherState) (u : List String) (id : String) : Bool :=
  st.usersServices.any (fun p => p.1 == u && p.2 == id)

/-- addServiceToCurrentUsers from the source: a no-op when the
association exists, otherwise adds it. -/
def addServiceToCurrentUsers (st : LauncherState) (u : List String) (id : String) :
    LauncherState :=
  if usersServiceHas st u id then st
  else { st with usersServices := st.usersServices ++ [(u, id)] }

/-- Failure modes of installService that precede any store mutation. -/
inductive InstallErr where
  /-- users are not set -/
  | usersNotSet
  /-- device resources are not valid (cached verdict from the broker) -/
  | resourcesInvalid
  /-- version mistmatch: desired version below the installed one -/
  | versionMismatch
deriving DecidableEq, Repr

/-- installServiceM embeds installService: the unset-users check, the
device validation check, the version comparison against the stored
record, then the same-version start path, the update path (which on
success emits one removed status for the old version, as updateService
does), or the fresh install path.  The returned list holds the status
events emitted inside the call when a sender is configured. -/
def installServiceM (hasSender : Bool) (st : LauncherState) (info : ServiceInfoFromCloud) :
    Except InstallErr (LauncherState × List StatusEvent) :=
  match st.users with
  | none => .error .usersNotSet
  | some users =>
    match st.resourcesError with
    | some _ => .error .resourcesInvalid
    | none =>
      match getServiceL st info.id with
      | some service =>
        if info.version < service.version then .error .versionMismatch
        else if info.version == service.version then
          .ok (addServiceToCurrentUsers st users info.id, [])
        else
          let st2 := addServiceToCurrentUsers st users info.id
          let st3 := updateServiceStore st2 { id := info.id, version := info.version }
          let removedEv : StatusEvent := { id := info.id, version := service.version, status := "removed" }
          .ok (st3, if hasSender then [removedEv] else [])
      | none =>
        let st2 := addServiceStore st { id := info.id, version := info.version }
        let st3 := addServiceToCurrentUsers st2 users info.id
        .ok (st3, [])

/-- doActionInstall embeds the queued install action: on any error one
error status is sent (via the deferred handler), on success the
users-service record is read back and one installed status is sent;
events emitted inside installService (the update path) come first. -/
def doActionInstall (hasSender : Bool) (st : LauncherState) (info : ServiceInfoFromCloud) :
    LauncherState × List StatusEvent :=
  let errEv : StatusEvent := { id := info.id, version := info.version, status := "error" }
  let okEv : StatusEvent := { id := info.id, version := info.version, status := "installed" }
  match installServiceM hasSender st info with
  | .error _ => (st, if hasSender then [errEv] else [])
  | .ok (st2, evs) =>
    match st2.users with
    | none => (st2, evs ++ if hasSender then [errEv] else [])
    | some u =>
      if usersServiceHas st2 u info.id then
        (st2, evs ++ if hasSender then [okEv] else [])
      else
        (st2, evs ++ if hasSender then [errEv] else [])

/-- uninstallService embeds uninstallService: looks the service up
(version 0 on a missing record), requires users to be set, requires
the users-service association, and removes the association (the
service record itself stays in the store). -/
def uninstallService (st : LauncherState) (id : String) :
    Nat × Except String LauncherState :=
  match getServiceL st id with
  | none => (0, .error "not exist")
  | some svc =>
    match st.users with
    | none => (svc.version, .error "users are not set")
    | some u =>
      if usersServiceHas st u id then
        let kept := st.usersServices.filter (fun p => !(p.1 == u && p.2 == id))
        (svc.version, .ok { st with usersServices := kept })
      else (svc.version, .error "not exist")

/-- doActionUninstall embeds the queued uninstall action: exactly one
status is sent, removed on success and error on failure. -/
def doActionUninstall (hasSender : Bool) (st : LauncherState) (id : String) :
    LauncherState × List StatusEvent :=
  match uninstallService st id with
  | (v, .error _) =>
    (st, if hasSender then [{ id := id, version := v, status := "error" }] else [])
  | (v, .ok st2) =>
    (st2, if hasSender then [{ id := id, version := v, status := "removed" }] else [])

/-- processInstalls runs a batch of install actions in sequence, as
the per-key action queue does for distinct keys, collecting each
action's emitted events. -/
def processInstalls (hasSender : Bool) (st : LauncherState) :
    List ServiceInfoFromCloud → LauncherState × List (List StatusEvent)
  | [] => (st, [])
  | info :: rest =>
    let p := doActionInstall hasSender st info
    let q := processInstalls hasSender p.1 rest
    (q.1, p.2 :: q.2)

/-- getUsersServicesL embeds ServiceProvider.GetUsersServices: the
stored services associated with the given users. -/
def getUsersServicesL (st : LauncherState) (u : List String) : List LService :=
  st.services.filter (fun s => usersServiceHas st u s.id)

/-- stopServicesTargets embeds the service selection of stopServices:
with users unset every stored service is stopped, otherwise only the
current users' services. -/
def stopServicesTargets (st : LauncherState) : List LService :=
  match st.users with
  | none => st.services
  | some u => getUsersServicesL st u

/-! ## Database (package database)

Embeds Database.GetService: the sqlite query

SELECT * FROM services WHERE aosVersion =
  (SELECT MAX(aosVersion) FROM services WHERE id = ?)

against a table modelled as the list of rows in insertion (rowid)
order.  The inner MAX over an empty set is NULL, which makes the
outer comparison match no row; QueryRow takes the first row of the
result set, and sql.ErrNoRows maps to the not-exist error.  Note that
the outer WHERE clause does not constrain the id column. -/

/-- ServiceRow: the key columns of the services table. -/
structure ServiceRow where
  serviceID : String
  aosVersion : Nat
deriving DecidableEq, Repr

/-- Database error outcomes. -/
inductive DBErr where
  /-- entry does not exist -/
  | notExist
deriving DecidableEq, Repr

/-- listMaxNat embeds SQL MAX: NULL (none) over the empty set. -/
def listMaxNat : List Nat → Option Nat
  | [] => none
  | n :: t =>
    match listMaxNat t with
    | none => some n
    | some m => some (max n m)

/-- dbGetService embeds Database.GetService. -/
def dbGetService (tbl : List ServiceRow) (serviceID : String) :
    Except DBErr ServiceRow :=
  match listMaxNat ((tbl.filter (fun r => r.serviceID == serviceID)).map
      (fun r => r.aosVersion)) with
  | none => .error .notExist
  | some mx =>
    match tbl.find? (fun r => r.aosVersion == mx) with
    | some row => .ok row
    | none => .error .notExist

/-! ## Desired-set processing (servicemanager.go processAmqpMessage)

The Go code builds a map from service ID to a pair of pointers and
then decides per entry.  Both pointers are taken of the range loop
variables; in the Go version this repository builds with, a range
loop has a single loop variable, so after the loops every stored
serviceInfo pointer refers to the last element of the current list
and every serviceInfoFromCloud pointer to the last element of the
desired list.  Whether a pointer was set at all is still tracked per
ID.  The embedding reproduces exactly that: the per-entry decision
compares the versions of the two last elements, and the submitted
install carries the last desired element.  Map iteration order in Go
is unspecified; the embedding emits actions in first-insertion key
order, which fixes one of the possible orders without changing the
multiset of actions. -/

/-- AmqpServiceInfo: the fields of amqp.ServiceInfo and
amqp.ServiceInfoFromCloud that processAmqpMessage reads. -/
structure AmqpServiceInfo where
  id : String
  version : Nat
deriving DecidableEq, Repr

/-- Actions submitted by processAmqpMessage to the launcher. -/
inductive CloudAction where
  | install (info : AmqpServiceInfo)
  | remove (id : String)
deriving DecidableEq, Repr

/-- dedupAux keeps the first occurrence of each key. -/
def dedupAux : List String → List String → List String
  | [], _ => []
  | k :: t, seen =>
    if seen.contains k then dedupAux t seen else k :: dedupAux t (k :: seen)

/-- dedupKeys lists the distinct keys in first-occurrence order. -/
def dedupKeys (l : List String) : List String := dedupAux l []

/-- decideKey is the per-entry decision of processAmqpMessage, reading
the aliased last elements. -/
def decideKey (lastCur lastDes : Option AmqpServiceInfo) (hasCur hasDes : Bool) :
    Option CloudAction :=
  match hasDes, hasCur with
  | true, true =>
    match lastDes, lastCur with
    | some d, some c => if c.version < d.version then some (.install d) else none
    | _, _ => none
  | true, false =>
    match lastDes with
    | some d => some (.install d)
    | none => none
  | false, true =>
    match lastCur with
    | some c => some (.remove c.id)
    | none => none
  | false, false => none

/-- processAmqpMessage embeds the services-info branch of
processAmqpMessage: the actions submitted to the launcher for one
received desired set, given the current installed list. -/
def processAmqpMessage (currentList desired : List AmqpServiceInfo) :
    List CloudAction :=
  let keys := dedupKeys (currentList.map (fun s => s.id) ++ desired.map (fun s => s.id))
  keys.filterMap (fun k =>
    decideKey currentList.getLast? desired.getLast?
      (currentList.any (fun s => s.id == k)) (desired.any (fun s => s.id == k)))

/-! ## Action queue

Modelled from the spec: the per-key action queue implementation
behind newActionHandler and PutInQueue is not present in the source
tree (launcher.go only calls it), so the queue is modelled from the
specification of section 4.1: a map from key to a pending deque and a
busy flag over a worker pool; on submit the action is appended and,
if the key is not busy, the key is marked busy and the action is
dispatched; on completion the next pending action for the key is
dispatched, or the busy flag is cleared.  The model keeps the
multiset of executing actions as a list, plus submission and start
logs for stating the FIFO property.  Dispatch is immediate, so a key
is busy exactly when an action with that key is executing. -/

/-- Action queue state: pending actions in submission order,
executing actions, and append-only logs of starts and submissions.
An action is a (key, payload) pair; payloads are numbered so that
order can be observed. -/
structure AQState where
  pending : List (String × Nat)
  executing : List (String × Nat)
  startedLog : List (String × Nat)
  submittedLog : List (String × Nat)
deriving DecidableEq, Repr

/-- Queue events: a client submits an action for a key, or the worker
executing the key finishes its current action. -/
inductive AQEvent where
  | submit (key : String) (act : Nat)
  | finish (key : String)
deriving DecidableEq, Repr

/-- keyFilter restricts a list of actions to one key, keeping order. -/
def keyFilter (l : List (String × Nat)) (k : String) : List (String × Nat) :=
  l.filter (fun p => p.1 == k)

/-- removeFirstPair drops the first occurrence of a pair. -/
def removeFirstPair : List (String × Nat) → (String × Nat) → List (String × Nat)
  | [], _ => []
  | p :: t, q => if p == q then t else p :: removeFirstPair t q

/-- aqStep is one transition of the queue. -/
def aqStep (st : AQState) (e : AQEvent) : AQState :=
  match e with
  | .submit k a =>
    if (keyFilter st.executing k).isEmpty then
      { st with executing := st.executing ++ [(k, a)]
                startedLog := st.startedLog ++ [(k, a)]
                submittedLog := st.submittedLog ++ [(k, a)] }
    else
      { st with pending := st.pending ++ [(k, a)]
                submittedLog := st.submittedLog ++ [(k, a)] }
  | .finish k =>
    match keyFilter st.executing k with
    | [] => st
    | p :: _ =>
      let ex := removeFirstPair st.executing p
      match keyFilter st.pending k with
      | [] => { st with executing := ex }
      | q :: _ =>
        { st with executing := ex ++ [q]
                  pending := removeFirstPair st.pending q
                  startedLog := st.startedLog ++ [q] }

/-- aqInit is the empty queue. -/
def aqInit : AQState :=
  { pending := [], executing := [], startedLog := [], submittedLog := [] }

/-- aqRun folds a sequence of events from the empty queue. -/
def aqRun (events : List AQEvent) : AQState :=
  events.foldl aqStep aqInit

/-! ## Basic lemmas -/

theorem containsGo_of_mem {l : List String} {s : String} (h : s ∈ l) :
    containsGo l s = true := by
  unfold containsGo
  exact List.any_eq_true.mpr ⟨s, h, strContains_refl s⟩

theorem mapGet_mapSet_self (m : List (String × List String)) (k : String)
    (v : List String) : mapGet (mapSet m k v) k = v := by
  induction m with
  | nil => simp [mapSet, mapGet]
  | cons p t ih =>
    by_cases h : p.1 = k
    · simp [mapSet, mapGet, h]
    · simp [mapSet, mapGet, h, ih]

theorem mapGet_mapSet_ne (m : List (String × List String)) (k k2 : String)
    (v : List String) (h : k ≠ k2) : mapGet (mapSet m k v) k2 = mapGet m k2 := by
  induction m with
  | nil => simp [mapSet, mapGet, h]
  | cons p t ih =>
    by_cases hp : p.1 = k
    · simp [mapSet, mapGet, hp, h]
    · simp only [mapSet, hp, if_neg hp, mapGet]
      by_cases hp2 : p.1 = k2
      · simp [hp2]
      · simp [hp2, ih]

theorem removeFromSlice_length_le (l : List String) (s : String) :
    (removeFromSlice l s).length ≤ l.length := by
  induction l with
  | nil => simp [removeFromSlice]
  | cons a t ih =>
    by_cases h : a = s
    · simp only [removeFromSlice, if_pos h, List.length_cons]
      exact Nat.le_succ t.length
    · simp only [removeFromSlice, if_neg h, List.length_cons]
      exact Nat.succ_le_succ ih

theorem removeFromSlice_count {l : List String} {s : String} (h : s ∈ l) :
    (removeFromSlice l s).count s + 1 = l.count s := by
  induction l with
  | nil => cases h
  | cons a t ih =>
    by_cases ha : a = s
    · subst ha
      simp [removeFromSlice, List.count_cons_self]
    · have hmem : s ∈ t := by
        cases h with
        | head => exact absurd rfl ha
        | tail _ hm => exact hm
      have hne : ¬(a = s) := ha
      simp only [removeFromSlice, if_neg hne]
      rw [List.count_cons_of_ne (fun hsa => hne hsa.symm),
        List.count_cons_of_ne (fun hsa => hne hsa.symm)]
      exact ih hmem

theorem not_mem_removeFromSlice {l : List String} {s : String}
    (hmem : s ∈ l) (hcnt : l.count s ≤ 1) : s ∉ removeFromSlice l s := by
  have h1 : l.count s ≠ 0 := fun h0 => (List.count_eq_zero.mp h0) hmem
  have h0 : (removeFromSlice l s).count s = 0 := by
    have := removeFromSlice_count hmem
    omega
  exact List.count_eq_zero.mp h0

theorem find?_some_ne_nil {α : Type} {l : List α} {p : α → Bool} {r : α}
    (h : l.find? p = some r) : l ≠ [] := by
  intro hn
  subst hn
  simp at h

/-! ## Claim C10 -/

/-- C10: constructing the resource manager never fails because the
resource declaration file is missing or unparseable: with discovery
succeeding and no parsed configuration, New returns a manager, the
failure is deferred into the cached validation verdict returned by
AreResourcesValid, the grants map starts empty, and every subsequent
RequestDevice or ReleaseDevice fails with the
resource-configuration-not-provided error, leaving the grant state
unchanged (an error returns no new state). -/
theorem c10_new_defers_config_failure :
    ∀ (hd hg : List String) (d s : String),
      ∃ rm, rmNew (.ok hd) (.ok hg) none = .ok rm ∧
        AreResourcesValid rm = some "resource configuration is not provided" ∧
        rm.deviceWithServices = [] ∧
        RequestDevice rm d s = .error .resourcesNotProvided ∧
        ReleaseDevice rm d s = .error .resourcesNotProvided := by
  intro hd hg d s
  refine ⟨_, rfl, ?_, ?_, ?_, ?_⟩ <;>
    simp [rmNew, AreResourcesValid, validateDeviceResources,
      isAvailableResourcesChecked, RequestDevice, ReleaseDevice]

/-! ## Claim C8 -/

/-- C8: code-bug evidence.  The outer SELECT of Database.GetService
does not constrain the id column, so with the rows (service2, 1) and
(service1, 1) stored in that order, GetService("service1") returns
the row of service2 — a different service ID — instead of the
service1 record the documentation and the spec promise.  The
not-exist side of the claim does hold, shown on a missing id. -/
theorem c8_getservice_returns_wrong_service :
    dbGetService [{ serviceID := "service2", aosVersion := 1 },
      { serviceID := "service1", aosVersion := 1 }] "service1"
      = .ok { serviceID := "service2", aosVersion := 1 } ∧
    dbGetService [{ serviceID := "service2", aosVersion := 1 },
      { serviceID := "service1", aosVersion := 1 }] "service3"
      = .error .notExist := by
  exact ⟨rfl, rfl⟩

/-! ## Claim C9 -/

/-- C9: code-bug evidence.  Reprocessing a desired set equal (as a
set) to the current one is not idempotent: with current list
[(B,2), (A,1)] and desired list [(A,1), (B,2)] — a permutation, every
service at its current version — the decision loop compares the
aliased last elements (A,1) and (B,2) for every map entry and submits
two install actions for (B,2), where the claim requires zero
actions. -/
theorem c9_reprocess_same_set_not_idempotent :
    processAmqpMessage
        [{ id := "B", version := 2 }, { id := "A", version := 1 }]
        [{ id := "A", version := 1 }, { id := "B", version := 2 }]
      = [.install { id := "B", version := 2 }, .install { id := "B", version := 2 }] ∧
    ([{ id := "B", version := 2 }, { id := "A", version := 1 }] : List AmqpServiceInfo).Perm
      [{ id := "A", version := 1 }, { id := "B", version := 2 }] := by
  constructor
  · rfl
  · decide

/-! ## Claim C6 -/

/-- C6: with no users/principal set (users is nil), every install
fails with the unset-users error before touching the store, the
install action leaves the state unchanged, and stopServices selects
every stored service (GetServices) instead of only the current
principal's services. -/
theorem c6_unset_users_refuses_installs_stops_all :
    ∀ (st : LauncherState) (info : ServiceInfoFromCloud) (hasSender : Bool),
      st.users = none →
      installServiceM hasSender st info = .error .usersNotSet ∧
      doActionInstall hasSender st info =
        (st, if hasSender then
          [{ id := info.id, version := info.version, status := "error" }] else []) ∧
      stopServicesTargets st = st.services := by
  intro st info hasSender h
  have h1 : installServiceM hasSender st info = .error .usersNotSet := by
    unfold installServiceM
    rw [h]
  refine ⟨h1, ?_, ?_⟩
  · unfold doActionInstall
    rw [h1]
  · unfold stopServicesTargets
    rw [h]

/-- Witness for C6 at a concrete state with one stored service. -/
theorem c6_unset_users_witness :
    installServiceM true
        { users := none, resourcesError := none,
          services := [{ id := "svcA", version := 3 }],
          usersServices := [] }
        { id := "svcA", version := 4 } = .error .usersNotSet ∧
      doActionInstall true
        { users := none, resourcesError := none,
          services := [{ id := "svcA", version := 3 }],
          usersServices := [] }
        { id := "svcA", version := 4 } =
        ({ users := none, resourcesError := none,
           services := [{ id := "svcA", version := 3 }],
           usersServices := [] },
          if true then [{ id := "svcA", version := 4, status := "error" }] else []) ∧
      stopServicesTargets
        { users := none, resourcesError := none,
          services := [{ id := "svcA", version := 3 }],
          usersServices := [] } = [{ id := "svcA", version := 3 }] :=
  c6_unset_users_refuses_installs_stops_all
    { users := none, resourcesError := none,
      services := [{ id := "svcA", version := 3 }],
      usersServices := [] }
    { id := "svcA", version := 4 } true rfl

/-! ## Claim C5 -/

/-- C5: an install request whose desired version is strictly lower
than the installed version of the same service ID fails with the
version-regression error, the store is left unchanged, and the
remaining install requests of the batch are processed exactly as they
would have been without the failed entry (the reconcile is not
aborted). -/
theorem c5_version_regression_isolated :
    ∀ (st : LauncherState) (u : List String) (info : ServiceInfoFromCloud)
      (svc : LService) (hasSender : Bool) (rest : List ServiceInfoFromCloud),
      st.users = some u →
      st.resourcesError = none →
      getServiceL st info.id = some svc →
      info.version < svc.version →
      installServiceM hasSender st info = .error .versionMismatch ∧
      doActionInstall hasSender st info =
        (st, if hasSender then
          [{ id := info.id, version := info.version, status := "error" }] else []) ∧
      processInstalls hasSender st (info :: rest) =
        ((processInstalls hasSender st rest).1,
          (if hasSender then
            [{ id := info.id, version := info.version, status := "error" }] else [])
            :: (processInstalls hasSender st rest).2) := by
  intro st u info svc hasSender rest hu hr hg hv
  have h1 : installServiceM hasSender st info = .error .versionMismatch := by
    unfold installServiceM
    rw [hu, hr, hg]
    simp [hv]
  have h2 : doActionInstall hasSender st info =
      (st, if hasSender then
        [{ id := info.id, version := info.version, status := "error" }] else []) := by
    unfold doActionInstall
    rw [h1]
  refine ⟨h1, h2, ?_⟩
  simp only [processInstalls]
  rw [h2]

/-- Witness for C5: version 1 requested while version 2 is installed;
a second request for another service still proceeds. -/
theorem c5_version_regression_witness :
    installServiceM true
        { users := some ["u1"], resourcesError := none,
          services := [{ id := "svcA", version := 2 }],
          usersServices := [(["u1"], "svcA")] }
        { id := "svcA", version := 1 } = .error .versionMismatch ∧
      doActionInstall true
        { users := some ["u1"], resourcesError := none,
          services := [{ id := "svcA", version := 2 }],
          usersServices := [(["u1"], "svcA")] }
        { id := "svcA", version := 1 } =
        ({ users := some ["u1"], resourcesError := none,
           services := [{ id := "svcA", version := 2 }],
           usersServices := [(["u1"], "svcA")] },
          if true then [{ id := "svcA", version := 1, status := "error" }] else []) ∧
      processInstalls true
        { users := some ["u1"], resourcesError := none,
          services := [{ id := "svcA", version := 2 }],
          usersServices := [(["u1"], "svcA")] }
        [{ id := "svcA", version := 1 }, { id := "svcB", version := 1 }] =
        ((processInstalls true
            { users := some ["u1"], resourcesError := none,
              services := [{ id := "svcA", version := 2 }],
              usersServices := [(["u1"], "svcA")] }
            [{ id := "svcB", version := 1 }]).1,
          (if true then [{ id := "svcA", version := 1, status := "error" }] else [])
            :: (processInstalls true
              { users := some ["u1"], resourcesError := none,
                services := [{ id := "svcA", version := 2 }],
                usersServices := [(["u1"], "svcA")] }
              [{ id := "svcB", version := 1 }]).2) :=
  c5_version_regression_isolated
    { users := some ["u1"], resourcesError := none,
      services := [{ id := "svcA", version := 2 }],
      usersServices := [(["u1"], "svcA")] }
    ["u1"] { id := "svcA", version := 1 } { id := "svcA", version := 2 } true
    [{ id := "svcB", version := 1 }] rfl rfl rfl (by decide)

/-! ## Reduction lemmas for the resource manager -/

/-- withGrants replaces the grants map of a manager, leaving every
other field unchanged; both success paths of RequestDevice and
ReleaseDevice produce such a state. -/
def withGrants (rm : ResourceManager) (m : List (String × List String)) : ResourceManager :=
  { rm with deviceWithServices := m }

theorem checked_of_found {rm : ResourceManager} {d : String} {r : DeviceResource}
    (hr : getAvailableDeviceByName rm.availableResources d = some r) :
    isAvailableResourcesChecked rm = true := by
  have hne : rm.availableResources.devices ≠ [] := find?_some_ne_nil hr
  simp [isAvailableResourcesChecked, List.length_eq_zero, hne]

theorem RequestDevice_eq_of_found {rm : ResourceManager} {d : String} {r : DeviceResource}
    (s : String) (hr : getAvailableDeviceByName rm.availableResources d = some r) :
    RequestDevice rm d s =
      if r.sharedCount = 0 ∨
          ((mapGet rm.deviceWithServices d).length : Int) < r.sharedCount then
        if containsGo (mapGet rm.deviceWithServices d) s then .ok rm
        else .ok (withGrants rm (mapSet rm.deviceWithServices d (mapGet rm.deviceWithServices d ++ [s])))
      else .error .unavailable := by
  unfold RequestDevice withGrants
  rw [checked_of_found hr, hr]
  simp

theorem ReleaseDevice_eq_of_found {rm : ResourceManager} {d : String} {r : DeviceResource}
    (s : String) (hr : getAvailableDeviceByName rm.availableResources d = some r) :
    ReleaseDevice rm d s =
      if containsGo (mapGet rm.deviceWithServices d) s then
        .ok (withGrants rm (mapSet rm.deviceWithServices d (removeFromSlice (mapGet rm.deviceWithServices d) s)))
      else .error .notProvidedForService := by
  unfold ReleaseDevice withGrants
  rw [checked_of_found hr, hr]
  simp

/-! ## Claim C1 -/

/-- C1: counterexample to the claim as stated.  One device dev0 with
SharedCount 1; after a successful request, the same instance srv0
repeats its request.  The claim says Unavailable happens only when
the requester is not already among the holders, so the re-request
should be a successful no-op; the code returns the unavailable error
because the capacity test comes before the holder test. -/
theorem c1_rerequest_at_capacity_fails :
    RequestDevice
      (runDevOps
        (rmInit [] [] { devices :=
          [{ name := "dev0", sharedCount := 1, groups := [], hostDevices := [] }] })
        [.request "dev0" "srv0"]) "dev0" "srv0" = .error .unavailable ∧
    mapGet (runDevOps
        (rmInit [] [] { devices :=
          [{ name := "dev0", sharedCount := 1, groups := [], hostDevices := [] }] })
        [.request "dev0" "srv0"]).deviceWithServices "dev0" = ["srv0"] :=
  ⟨rfl, rfl⟩

/-- C1 amended: RequestDevice(d, s) fails with the not-provided error
when no declaration is loaded; when the lookup of d (the first
declared device whose name is a substring of d) finds nothing it
fails with the unknown-device error; when the lookup resolves to
declaration r it fails with the unavailable error exactly when
r.SharedCount is nonzero and the holder count of d is at least
r.SharedCount, regardless of whether s is already among the holders;
in every other case it succeeds, appending s to the grant set unless
some holder contains s as a substring, in which case it is a no-op
(so a re-request by a holder s below capacity succeeds without
change). -/
theorem c1_request_device_characterization :
    ∀ (rm : ResourceManager) (d s : String),
      (rm.availableResources.devices = [] →
        RequestDevice rm d s = .error .resourcesNotProvided) ∧
      (getAvailableDeviceByName rm.availableResources d = none →
        rm.availableResources.devices ≠ [] →
        RequestDevice rm d s = .error .deviceNotPresented) ∧
      (∀ r, getAvailableDeviceByName rm.availableResources d = some r →
        ((r.sharedCount ≠ 0 ∧
            r.sharedCount ≤ ((mapGet rm.deviceWithServices d).length : Int)) →
          RequestDevice rm d s = .error .unavailable) ∧
        ((r.sharedCount = 0 ∨
            ((mapGet rm.deviceWithServices d).length : Int) < r.sharedCount) →
          (containsGo (mapGet rm.deviceWithServices d) s = true →
            RequestDevice rm d s = .ok rm) ∧
          (containsGo (mapGet rm.deviceWithServices d) s = false →
            RequestDevice rm d s =
              .ok (withGrants rm (mapSet rm.deviceWithServices d
                (mapGet rm.deviceWithServices d ++ [s])))))) := by
  intro rm d s
  refine ⟨?_, ?_, ?_⟩
  · intro h
    simp [RequestDevice, isAvailableResourcesChecked, h]
  · intro hn hne
    have hc : isAvailableResourcesChecked rm = true := by
      simp [isAvailableResourcesChecked, List.length_eq_zero, hne]
    unfold RequestDevice
    rw [hc, hn]
    simp
  · intro r hr
    constructor
    · intro hcap
      rw [RequestDevice_eq_of_found s hr]
      have hnot : ¬(r.sharedCount = 0 ∨
          ((mapGet rm.deviceWithServices d).length : Int) < r.sharedCount) := by
        push_neg
        exact ⟨hcap.1, hcap.2⟩
      rw [if_neg hnot]
    · intro hcond
      constructor
      · intro hmem
        rw [RequestDevice_eq_of_found s hr, if_pos hcond, if_pos hmem]
      · intro hmem
        rw [RequestDevice_eq_of_found s hr, if_pos hcond,
          if_neg (by simp [hmem])]

/-- Witness for C1 amended: a fresh request on a declared device with
spare capacity succeeds and records the holder. -/
theorem c1_request_device_witness :
    RequestDevice
        (rmInit [] [] { devices :=
          [{ name := "dev0", sharedCount := 2, groups := [], hostDevices := [] }] })
        "dev0" "srv0" =
      .ok (withGrants
        (rmInit [] [] { devices :=
          [{ name := "dev0", sharedCount := 2, groups := [], hostDevices := [] }] })
        (mapSet (rmInit [] [] { devices :=
            [{ name := "dev0", sharedCount := 2, groups := [], hostDevices := [] }] }).deviceWithServices
          "dev0"
          (mapGet (rmInit [] [] { devices :=
              [{ name := "dev0", sharedCount := 2, groups := [], hostDevices := [] }] }).deviceWithServices
            "dev0" ++ ["srv0"]))) :=
  (((c1_request_device_characterization
      (rmInit [] [] { devices :=
        [{ name := "dev0", sharedCount := 2, groups := [], hostDevices := [] }] })
      "dev0" "srv0").2.2
    { name := "dev0", sharedCount := 2, groups := [], hostDevices := [] } rfl).2
      (by decide)).2 (by decide)

/-! ## Claim C3 -/

/-- C3: counterexample to the claim as stated.  Device dev0 is held
by instance abc only; releasing for the identifier b — which is NOT
in the grant set — must fail with the not-granted error per the
claim, but the holder test is a substring test (b occurs in abc), so
the code succeeds and removes nothing: the state is returned
unchanged. -/
theorem c3_release_substring_false_success :
    ReleaseDevice
      (runDevOps
        (rmInit [] [] { devices :=
          [{ name := "dev0", sharedCount := 0, groups := [], hostDevices := [] }] })
        [.request "dev0" "abc"]) "dev0" "b" =
      .ok (runDevOps
        (rmInit [] [] { devices :=
          [{ name := "dev0", sharedCount := 0, groups := [], hostDevices := [] }] })
        [.request "dev0" "abc"]) ∧
    "b" ∉ mapGet (runDevOps
        (rmInit [] [] { devices :=
          [{ name := "dev0", sharedCount := 0, groups := [], hostDevices := [] }] })
        [.request "dev0" "abc"]).deviceWithServices "dev0" :=
  ⟨rfl, by decide⟩

/-- C3 amended: with a loaded declaration and the name d resolving to
a declared device, ReleaseDevice(d, s) fails with the not-granted
error exactly when no current holder of d contains s as a substring;
otherwise it succeeds, removing the first holder exactly equal to s
(possibly none); in particular when s itself is a holder and the
holders of d are duplicate-free, the release succeeds and s is no
longer a holder afterwards. -/
theorem c3_release_device_characterization :
    ∀ (rm : ResourceManager) (d s : String) (r : DeviceResource),
      getAvailableDeviceByName rm.availableResources d = some r →
      (containsGo (mapGet rm.deviceWithServices d) s = false →
        ReleaseDevice rm d s = .error .notProvidedForService) ∧
      (containsGo (mapGet rm.deviceWithServices d) s = true →
        ReleaseDevice rm d s =
          .ok (withGrants rm (mapSet rm.deviceWithServices d
            (removeFromSlice (mapGet rm.deviceWithServices d) s)))) ∧
      (s ∈ mapGet rm.deviceWithServices d →
        (mapGet rm.deviceWithServices d).count s ≤ 1 →
        ∃ rm2, ReleaseDevice rm d s = .ok rm2 ∧
          s ∉ mapGet rm2.deviceWithServices d) := by
  intro rm d s r hr
  refine ⟨?_, ?_, ?_⟩
  · intro hmem
    rw [ReleaseDevice_eq_of_found s hr, if_neg (by simp [hmem])]
  · intro hmem
    rw [ReleaseDevice_eq_of_found s hr, if_pos hmem]
  · intro hmem hcnt
    refine ⟨withGrants rm (mapSet rm.deviceWithServices d
      (removeFromSlice (mapGet rm.deviceWithServices d) s)), ?_, ?_⟩
    · rw [ReleaseDevice_eq_of_found s hr, if_pos (containsGo_of_mem hmem)]
    · show s ∉ mapGet (mapSet rm.deviceWithServices d
        (removeFromSlice (mapGet rm.deviceWithServices d) s)) d
      rw [mapGet_mapSet_self]
      exact not_mem_removeFromSlice hmem hcnt

/-- Witness for C3 amended: the only holder srv0 releases dev0 and is
no longer a holder. -/
theorem c3_release_device_witness :
    ∃ rm2, ReleaseDevice
        (runDevOps
          (rmInit [] [] { devices :=
            [{ name := "dev0", sharedCount := 0, groups := [], hostDevices := [] }] })
          [.request "dev0" "srv0"]) "dev0" "srv0" = .ok rm2 ∧
      "srv0" ∉ mapGet rm2.deviceWithServices "dev0" :=
  (c3_release_device_characterization
      (runDevOps
        (rmInit [] [] { devices :=
          [{ name := "dev0", sharedCount := 0, groups := [], hostDevices := [] }] })
        [.request "dev0" "srv0"]) "dev0" "srv0"
      { name := "dev0", sharedCount := 0, groups := [], hostDevices := [] }
      rfl).2.2 (by decide) (by decide)

/-! ## Claim C2 -/

theorem RequestDevice_ok_cases {rm rm2 : ResourceManager} {d2 s : String}
    (h : RequestDevice rm d2 s = .ok rm2) :
    rm2 = rm ∨
    ∃ r, getAvailableDeviceByName rm.availableResources d2 = some r ∧
      (r.sharedCount = 0 ∨
        ((mapGet rm.deviceWithServices d2).length : Int) < r.sharedCount) ∧
      rm2 = withGrants rm (mapSet rm.deviceWithServices d2
        (mapGet rm.deviceWithServices d2 ++ [s])) := by
  by_cases hchk : isAvailableResourcesChecked rm = true
  · cases hfind : getAvailableDeviceByName rm.availableResources d2 with
    | none =>
      have herr : RequestDevice rm d2 s = .error .deviceNotPresented := by
        unfold RequestDevice
        simp [hchk, hfind]
      rw [herr] at h
      exact absurd h (by simp)
    | some r =>
      rw [RequestDevice_eq_of_found s hfind] at h
      by_cases hcond : (r.sharedCount = 0 ∨
          ((mapGet rm.deviceWithServices d2).length : Int) < r.sharedCount)
      · rw [if_pos hcond] at h
        by_cases hmem : containsGo (mapGet rm.deviceWithServices d2) s = true
        · rw [if_pos hmem] at h
          left
          injection h with h2
          exact h2.symm
        · rw [if_neg hmem] at h
          right
          injection h with h2
          exact ⟨r, rfl, hcond, h2.symm⟩
      · rw [if_neg hcond] at h
        exact absurd h (by simp)
  · have herr : RequestDevice rm d2 s = .error .resourcesNotProvided := by
      unfold RequestDevice
      simp [hchk]
    rw [herr] at h
    exact absurd h (by simp)

theorem ReleaseDevice_ok_cases {rm rm2 : ResourceManager} {d2 s : String}
    (h : ReleaseDevice rm d2 s = .ok rm2) :
    rm2 = withGrants rm (mapSet rm.deviceWithServices d2
      (removeFromSlice (mapGet rm.deviceWithServices d2) s)) := by
  by_cases hchk : isAvailableResourcesChecked rm = true
  · cases hfind : getAvailableDeviceByName rm.availableResources d2 with
    | none =>
      have herr : ReleaseDevice rm d2 s = .error .deviceNotPresented := by
        unfold ReleaseDevice
        simp [hchk, hfind]
      rw [herr] at h
      exact absurd h (by simp)
    | some r =>
      rw [ReleaseDevice_eq_of_found s hfind] at h
      by_cases hmem : containsGo (mapGet rm.deviceWithServices d2) s = true
      · rw [if_pos hmem] at h
        injection h with h2
        exact h2.symm
      · rw [if_neg hmem] at h
        exact absurd h (by simp)
  · have herr : ReleaseDevice rm d2 s = .error .resourcesNotProvided := by
      unfold ReleaseDevice
      simp [hchk]
    rw [herr] at h
    exact absurd h (by simp)

theorem applyDevOp_avail (rm : ResourceManager) (op : DevOp) :
    (applyDevOp rm op).availableResources = rm.availableResources := by
  cases op with
  | request d2 s =>
    cases hreq : RequestDevice rm d2 s with
    | error e => simp [applyDevOp, hreq]
    | ok rm2 =>
      have hg : applyDevOp rm (DevOp.request d2 s) = rm2 := by simp [applyDevOp, hreq]
      rw [hg]
      rcases RequestDevice_ok_cases hreq with h2 | ⟨r2, h3, h4, h2⟩
      · rw [h2]
      · rw [h2]
        rfl
  | release d2 s =>
    cases hrel : ReleaseDevice rm d2 s with
    | error e => simp [applyDevOp, hrel]
    | ok rm2 =>
      have hg : applyDevOp rm (DevOp.release d2 s) = rm2 := by simp [applyDevOp, hrel]
      rw [hg, ReleaseDevice_ok_cases hrel]
      rfl

theorem applyDevOp_capacity {rm : ResourceManager} {d : String} {r : DeviceResource}
    (op : DevOp)
    (hr : getAvailableDeviceByName rm.availableResources d = some r)
    (hpos : 0 < r.sharedCount)
    (hlen : ((mapGet rm.deviceWithServices d).length : Int) ≤ r.sharedCount) :
    ((mapGet (applyDevOp rm op).deviceWithServices d).length : Int) ≤ r.sharedCount := by
  cases op with
  | request d2 s =>
    cases hreq : RequestDevice rm d2 s with
    | error e => simpa [applyDevOp, hreq] using hlen
    | ok rm2 =>
      have hg : applyDevOp rm (DevOp.request d2 s) = rm2 := by simp [applyDevOp, hreq]
      rw [hg]
      rcases RequestDevice_ok_cases hreq with h2 | ⟨r2, hfind2, hcond2, h2⟩
      · rw [h2]
        exact hlen
      · subst h2
        by_cases hd : d2 = d
        · subst hd
          rw [hr] at hfind2
          injection hfind2 with hrr
          subst hrr
          show ((mapGet (mapSet rm.deviceWithServices d2
            (mapGet rm.deviceWithServices d2 ++ [s])) d2).length : Int) ≤ r.sharedCount
          rw [mapGet_mapSet_self]
          have hlt : ((mapGet rm.deviceWithServices d2).length : Int) < r.sharedCount := by
            rcases hcond2 with h0 | hlt2
            · omega
            · exact hlt2
          simp only [List.length_append, List.length_singleton]
          push_cast
          omega
        · show ((mapGet (mapSet rm.deviceWithServices d2
            (mapGet rm.deviceWithServices d2 ++ [s])) d).length : Int) ≤ r.sharedCount
          rw [mapGet_mapSet_ne _ _ _ _ hd]
          exact hlen
  | release d2 s =>
    cases hrel : ReleaseDevice rm d2 s with
    | error e => simpa [applyDevOp, hrel] using hlen
    | ok rm2 =>
      have hg : applyDevOp rm (DevOp.release d2 s) = rm2 := by simp [applyDevOp, hrel]
      rw [hg, ReleaseDevice_ok_cases hrel]
      by_cases hd : d2 = d
      · subst hd
        show ((mapGet (mapSet rm.deviceWithServices d2
          (removeFromSlice (mapGet rm.deviceWithServices d2) s)) d2).length : Int) ≤ r.sharedCount
        rw [mapGet_mapSet_self]
        have hle := removeFromSlice_length_le (mapGet rm.deviceWithServices d2) s
        have : ((removeFromSlice (mapGet rm.deviceWithServices d2) s).length : Int)
            ≤ ((mapGet rm.deviceWithServices d2).length : Int) := by
          exact_mod_cast hle
        omega
      · show ((mapGet (mapSet rm.deviceWithServices d2
          (removeFromSlice (mapGet rm.deviceWithServices d2) s)) d).length : Int) ≤ r.sharedCount
        rw [mapGet_mapSet_ne _ _ _ _ hd]
        exact hlen

theorem runDevOps_capacity :
    ∀ (ops : List DevOp) (rm : ResourceManager) (d : String) (r : DeviceResource),
      getAvailableDeviceByName rm.availableResources d = some r →
      0 < r.sharedCount →
      ((mapGet rm.deviceWithServices d).length : Int) ≤ r.sharedCount →
      ((mapGet (runDevOps rm ops).deviceWithServices d).length : Int) ≤ r.sharedCount := by
  intro ops
  induction ops with
  | nil =>
    intro rm d r hr hpos hlen
    simpa [runDevOps] using hlen
  | cons op t ih =>
    intro rm d r hr hpos hlen
    have hstep := applyDevOp_capacity op hr hpos hlen
    have hr2 : getAvailableDeviceByName (applyDevOp rm op).availableResources d = some r := by
      rw [applyDevOp_avail]
      exact hr
    have hres := ih (applyDevOp rm op) d r hr2 hpos hstep
    simpa [runDevOps] using hres

/-- C2: counterexample to the claim as stated.  Two declared devices:
d with SharedCount 2 and dx with SharedCount 1.  The lookup of the
requested name dx returns the FIRST declaration whose name is a
substring of dx — that is d, with SharedCount 2 — so two distinct
instances are granted dx and the grant set of the declared device dx
(SharedCount 1) reaches two holders. -/
theorem c2_substring_shadow_exceeds_capacity :
    ({ name := "dx", sharedCount := 1, groups := [], hostDevices := [] } : DeviceResource) ∈
      ({ devices := [{ name := "d", sharedCount := 2, groups := [], hostDevices := [] },
        { name := "dx", sharedCount := 1, groups := [], hostDevices := [] }] }
        : AvailableResources).devices ∧
    mapGet (runDevOps
      (rmInit [] [] { devices :=
        [{ name := "d", sharedCount := 2, groups := [], hostDevices := [] },
         { name := "dx", sharedCount := 1, groups := [], hostDevices := [] }] })
      [.request "dx" "srvA", .request "dx" "srvB"]).deviceWithServices "dx"
      = ["srvA", "srvB"] :=
  ⟨by decide, rfl⟩

/-- C2 amended: for every requested name d, if the declaration that d
resolves to (the first declared device whose name is a substring of
d) has SharedCount s greater than zero, then after any sequence of
RequestDevice and ReleaseDevice operations from the initial
empty-grants state the grant set recorded for d holds at most s
identifiers.  For a declared device d this bound is its own
SharedCount exactly when the lookup of d returns d itself, for
instance when no earlier-declared device name is a substring of d. -/
theorem c2_capacity_invariant :
    ∀ (hd hg : List String) (avail : AvailableResources) (ops : List DevOp)
      (d : String) (r : DeviceResource),
      getAvailableDeviceByName avail d = some r →
      0 < r.sharedCount →
      ((mapGet (runDevOps (rmInit hd hg avail) ops).deviceWithServices d).length : Int)
        ≤ r.sharedCount := by
  intro hd hg avail ops d r hr hpos
  have h0 : ((mapGet (rmInit hd hg avail).deviceWithServices d).length : Int)
      ≤ r.sharedCount := by
    simp [rmInit, mapGet]
    omega
  exact runDevOps_capacity ops _ d r (by simpa [rmInit] using hr) hpos h0

/-- Witness for C2 amended: one device of SharedCount 1 and two
distinct requests for it; the second is refused and the grant set
stays within the bound. -/
theorem c2_capacity_invariant_witness :
    ((mapGet (runDevOps
      (rmInit [] [] { devices :=
        [{ name := "devA", sharedCount := 1, groups := [], hostDevices := [] }] })
      [.request "devA" "s1", .request "devA" "s2"]).deviceWithServices "devA").length : Int)
      ≤ 1 :=
  c2_capacity_invariant [] [] _
    [.request "devA" "s1", .request "devA" "s2"] "devA"
    { name := "devA", sharedCount := 1, groups := [], hostDevices := [] }
    rfl (by decide)

/-! ## Claim C7 -/

theorem addServiceToCurrentUsers_users (st : LauncherState) (u : List String)
    (id : String) : (addServiceToCurrentUsers st u id).users = st.users := by
  unfold addServiceToCurrentUsers
  split
  · rfl
  · rfl

theorem usersServiceHas_add (st : LauncherState) (u : List String) (id : String) :
    usersServiceHas (addServiceToCurrentUsers st u id) u id = true := by
  unfold addServiceToCurrentUsers
  by_cases h : usersServiceHas st u id = true
  · rw [if_pos h]
    exact h
  · rw [if_neg h]
    simp [usersServiceHas]

theorem doActionInstall_ok (hasSender : Bool) (st st2 : LauncherState)
    (info : ServiceInfoFromCloud) (evs : List StatusEvent) (u : List String)
    (h : installServiceM hasSender st info = .ok (st2, evs))
    (hu2 : st2.users = some u)
    (hhas : usersServiceHas st2 u info.id = true) :
    doActionInstall hasSender st info =
      (st2, evs ++ if hasSender then
        [{ id := info.id, version := info.version, status := "installed" }] else []) := by
  simp [doActionInstall, h, hu2, hhas]

theorem doActionInstall_err (hasSender : Bool) (st : LauncherState)
    (info : ServiceInfoFromCloud) (e : InstallErr)
    (h : installServiceM hasSender st info = .error e) :
    doActionInstall hasSender st info =
      (st, if hasSender then
        [{ id := info.id, version := info.version, status := "error" }] else []) := by
  simp [doActionInstall, h]

/-- C7: counterexample to the claim as stated.  An install action
that updates service A from version 1 to version 2 succeeds and emits
TWO status events — the removed event for the old version produced by
updateService, then the installed event of the action — where the
claim allows exactly one event per action. -/
theorem c7_update_success_emits_two_events :
    (doActionInstall true
      { users := some ["u"], resourcesError := none,
        services := [{ id := "A", version := 1 }],
        usersServices := [(["u"], "A")] }
      { id := "A", version := 2 }).2 =
      [{ id := "A", version := 1, status := "removed" },
       { id := "A", version := 2, status := "installed" }] ∧
    (doActionInstall true
      { users := some ["u"], resourcesError := none,
        services := [{ id := "A", version := 1 }],
        usersServices := [(["u"], "A")] }
      { id := "A", version := 2 }).2.length = 2 :=
  ⟨rfl, rfl⟩

/-- C7 amended: with a status sender configured and users set, every
uninstall action emits exactly one status event (removed on success,
error on failure) and every install action emits exactly one terminal
status event (installed on success, error on failure), preceded — in
the one case of a successful update of an existing service to a newer
version — by exactly one additional removed event carrying the old
version.  With no sender configured, no events are emitted. -/
theorem c7_status_event_characterization :
    ∀ (st : LauncherState) (u : List String) (info : ServiceInfoFromCloud) (id : String),
      st.users = some u →
      (∀ e, installServiceM true st info = .error e →
        (doActionInstall true st info).2 =
          [{ id := info.id, version := info.version, status := "error" }]) ∧
      (st.resourcesError = none → getServiceL st info.id = none →
        (doActionInstall true st info).2 =
          [{ id := info.id, version := info.version, status := "installed" }]) ∧
      (∀ svc, st.resourcesError = none → getServiceL st info.id = some svc →
        svc.version = info.version →
        (doActionInstall true st info).2 =
          [{ id := info.id, version := info.version, status := "installed" }]) ∧
      (∀ svc, st.resourcesError = none → getServiceL st info.id = some svc →
        svc.version < info.version →
        (doActionInstall true st info).2 =
          [{ id := info.id, version := svc.version, status := "removed" },
           { id := info.id, version := info.version, status := "installed" }]) ∧
      (∀ v st2, uninstallService st id = (v, .ok st2) →
        doActionUninstall true st id =
          (st2, [{ id := id, version := v, status := "removed" }])) ∧
      (∀ v e, uninstallService st id = (v, .error e) →
        doActionUninstall true st id =
          (st, [{ id := id, version := v, status := "error" }])) := by
  intro st u info id hu
  refine ⟨?_, ?_, ?_, ?_, ?_, ?_⟩
  · intro e h
    rw [doActionInstall_err true st info e h]
    rfl
  · intro hre hget
    have h1 : installServiceM true st info =
        .ok (addServiceToCurrentUsers
          (addServiceStore st { id := info.id, version := info.version }) u info.id, []) := by
      unfold installServiceM
      simp only [hu, hre, hget]
    have hu2 : (addServiceToCurrentUsers
        (addServiceStore st { id := info.id, version := info.version }) u info.id).users
        = some u := by
      rw [addServiceToCurrentUsers_users]
      exact hu
    have hhas := usersServiceHas_add
      (addServiceStore st { id := info.id, version := info.version }) u info.id
    rw [doActionInstall_ok true st _ info [] u h1 hu2 hhas]
    rfl
  · intro svc hre hget heq
    have hlt : ¬ info.version < svc.version := by omega
    have hbeq : (info.version == svc.version) = true := by
      simp [heq]
    have h1 : installServiceM true st info =
        .ok (addServiceToCurrentUsers st u info.id, []) := by
      unfold installServiceM
      simp only [hu, hre, hget]
      rw [if_neg hlt, if_pos hbeq]
    have hu2 : (addServiceToCurrentUsers st u info.id).users = some u := by
      rw [addServiceToCurrentUsers_users]
      exact hu
    have hhas := usersServiceHas_add st u info.id
    rw [doActionInstall_ok true st _ info [] u h1 hu2 hhas]
    rfl
  · intro svc hre hget hlt2
    have hlt : ¬ info.version < svc.version := by omega
    have hbeq : (info.version == svc.version) = false := by
      simp
      omega
    have h1 : installServiceM true st info =
        .ok (updateServiceStore (addServiceToCurrentUsers st u info.id)
            { id := info.id, version := info.version },
          [{ id := info.id, version := svc.version, status := "removed" }]) := by
      unfold installServiceM
      simp only [hu, hre, hget]
      rw [if_neg hlt, hbeq]
      simp
    have hu2 : (updateServiceStore (addServiceToCurrentUsers st u info.id)
        { id := info.id, version := info.version }).users = some u := by
      show (addServiceToCurrentUsers st u info.id).users = some u
      rw [addServiceToCurrentUsers_users]
      exact hu
    have hhas : usersServiceHas (updateServiceStore (addServiceToCurrentUsers st u info.id)
        { id := info.id, version := info.version }) u info.id = true := by
      show usersServiceHas (addServiceToCurrentUsers st u info.id) u info.id = true
      exact usersServiceHas_add st u info.id
    rw [doActionInstall_ok true st _ info _ u h1 hu2 hhas]
    rfl
  · intro v st2 h
    simp [doActionUninstall, h]
  · intro v e h
    simp [doActionUninstall, h]

/-- Witness for C7 amended: a fresh install on an empty store emits
exactly the single installed event. -/
theorem c7_status_event_witness :
    (doActionInstall true
      { users := some ["u"], resourcesError := none,
        services := [], usersServices := [] }
      { id := "newSvc", version := 1 }).2 =
      [{ id := "newSvc", version := 1, status := "installed" }] :=
  ((c7_status_event_characterization
    { users := some ["u"], resourcesError := none,
      services := [], usersServices := [] }
    ["u"] { id := "newSvc", version := 1 } "x" rfl).2.1 rfl rfl)

/-! ## Claim C4 -/

theorem keyFilter_append (l1 l2 : List (String × Nat)) (k : String) :
    keyFilter (l1 ++ l2) k = keyFilter l1 k ++ keyFilter l2 k := by
  simp [keyFilter]

theorem keyFilter_single_eq {p : String × Nat} {k : String} (h : p.1 = k) :
    keyFilter [p] k = [p] := by
  simp [keyFilter, h]

theorem keyFilter_single_ne {p : String × Nat} {k : String} (h : ¬ p.1 = k) :
    keyFilter [p] k = [] := by
  simp [keyFilter, h]

theorem keyFilter_head_key {l : List (String × Nat)} {k : String}
    {p : String × Nat} {rest : List (String × Nat)}
    (h : keyFilter l k = p :: rest) : p.1 = k := by
  have hmem : p ∈ keyFilter l k := by
    rw [h]
    exact List.mem_cons_self p rest
  have := (List.mem_filter.mp hmem).2
  exact beq_iff_eq.mp this

theorem keyFilter_removeFirstPair_head :
    ∀ {l : List (String × Nat)} {k : String} {p : String × Nat}
      {rest : List (String × Nat)},
      keyFilter l k = p :: rest →
      keyFilter (removeFirstPair l p) k = rest := by
  intro l
  induction l with
  | nil =>
    intro k p rest h
    simp [keyFilter] at h
  | cons x t ih =>
    intro k p rest h
    by_cases hx : x.1 = k
    · have hfil : keyFilter (x :: t) k = x :: keyFilter t k := by
        simp [keyFilter, hx]
      rw [hfil] at h
      have hxp : x = p := (List.cons.injEq _ _ _ _ ▸ h).1
      have htail : keyFilter t k = rest := (List.cons.injEq _ _ _ _ ▸ h).2
      subst hxp
      have : removeFirstPair (x :: t) x = t := by
        simp [removeFirstPair]
      rw [this]
      exact htail
    · have hfil : keyFilter (x :: t) k = keyFilter t k := by
        simp [keyFilter, hx]
      rw [hfil] at h
      have hpk : p.1 = k := keyFilter_head_key h
      have hxp : ¬ x = p := fun he => hx (he ▸ hpk)
      have hrem : removeFirstPair (x :: t) p = x :: removeFirstPair t p := by
        simp [removeFirstPair, hxp]
      rw [hrem]
      have : keyFilter (x :: removeFirstPair t p) k
          = keyFilter (removeFirstPair t p) k := by
        simp [keyFilter, hx]
      rw [this]
      exact ih h

theorem keyFilter_removeFirstPair_ne :
    ∀ (l : List (String × Nat)) {k k2 : String} {p : String × Nat},
      p.1 = k → k2 ≠ k →
      keyFilter (removeFirstPair l p) k2 = keyFilter l k2 := by
  intro l
  induction l with
  | nil =>
    intro k k2 p hpk hk
    rfl
  | cons x t ih =>
    intro k k2 p hpk hk
    by_cases hxp : x = p
    · have hrem : removeFirstPair (x :: t) p = t := by
        simp [removeFirstPair, hxp]
      rw [hrem]
      have hxk2 : ¬ x.1 = k2 := by
        rw [hxp, hpk]
        exact fun he => hk he.symm
      simp [keyFilter, hxk2]
    · have hrem : removeFirstPair (x :: t) p = x :: removeFirstPair t p := by
        simp [removeFirstPair, hxp]
      rw [hrem]
      by_cases hxk2 : x.1 = k2
      · have h1 : keyFilter (x :: removeFirstPair t p) k2
            = x :: keyFilter (removeFirstPair t p) k2 := by
          simp [keyFilter, hxk2]
        have h2 : keyFilter (x :: t) k2 = x :: keyFilter t k2 := by
          simp [keyFilter, hxk2]
        rw [h1, h2, ih hpk hk]
      · have h1 : keyFilter (x :: removeFirstPair t p) k2
            = keyFilter (removeFirstPair t p) k2 := by
          simp [keyFilter, hxk2]
        have h2 : keyFilter (x :: t) k2 = keyFilter t k2 := by
          simp [keyFilter, hxk2]
        rw [h1, h2, ih hpk hk]

/-- aqInv is the inductive invariant of the queue: per key, at most
one action is executing, the submission log splits into the start log
followed by the pending deque (starts happen in submission order),
and a key with no executing action has no pending actions. -/
def aqInv (st : AQState) : Prop :=
  ∀ k, (keyFilter st.executing k).length ≤ 1 ∧
    keyFilter st.submittedLog k = keyFilter st.startedLog k ++ keyFilter st.pending k ∧
    (keyFilter st.executing k = [] → keyFilter st.pending k = [])

theorem aqInv_init : aqInv aqInit := by
  intro k
  refine ⟨?_, ?_, ?_⟩ <;> simp [aqInit, keyFilter]

theorem aqInv_step {st : AQState} (h : aqInv st) (e : AQEvent) :
    aqInv (aqStep st e) := by
  cases e with
  | submit k a =>
    cases hex : keyFilter st.executing k with
    | nil =>
      have hpend : keyFilter st.pending k = [] := (h k).2.2 hex
      have hstep : aqStep st (.submit k a) =
          { st with
            executing := st.executing ++ [(k, a)],
            startedLog := st.startedLog ++ [(k, a)],
            submittedLog := st.submittedLog ++ [(k, a)] } := by
        simp [aqStep, hex]
      rw [hstep]
      intro k2
      by_cases hk : k2 = k
      · subst hk
        refine ⟨?_, ?_, ?_⟩
        · show (keyFilter (st.executing ++ [(k2, a)]) k2).length ≤ 1
          rw [keyFilter_append, hex, keyFilter_single_eq rfl]
          simp
        · show keyFilter (st.submittedLog ++ [(k2, a)]) k2
            = keyFilter (st.startedLog ++ [(k2, a)]) k2 ++ keyFilter st.pending k2
          rw [keyFilter_append, keyFilter_append, keyFilter_single_eq rfl,
            (h k2).2.1, hpend]
          simp
        · intro hcontra
          rw [keyFilter_append, hex, keyFilter_single_eq rfl] at hcontra
          simp at hcontra
      · have hne : ¬ ((k, a) : String × Nat).1 = k2 := fun he => hk he.symm
        refine ⟨?_, ?_, ?_⟩
        · show (keyFilter (st.executing ++ [(k, a)]) k2).length ≤ 1
          rw [keyFilter_append, keyFilter_single_ne hne]
          simpa using (h k2).1
        · show keyFilter (st.submittedLog ++ [(k, a)]) k2
            = keyFilter (st.startedLog ++ [(k, a)]) k2 ++ keyFilter st.pending k2
          rw [keyFilter_append, keyFilter_append, keyFilter_single_ne hne]
          simpa using (h k2).2.1
        · intro hcontra
          rw [keyFilter_append, keyFilter_single_ne hne] at hcontra
          simp at hcontra
          exact (h k2).2.2 hcontra
    | cons pe pet =>
      have hstep : aqStep st (.submit k a) =
          { st with
            pending := st.pending ++ [(k, a)],
            submittedLog := st.submittedLog ++ [(k, a)] } := by
        simp [aqStep, hex]
      rw [hstep]
      intro k2
      by_cases hk : k2 = k
      · subst hk
        refine ⟨(h k2).1, ?_, ?_⟩
        · show keyFilter (st.submittedLog ++ [(k2, a)]) k2
            = keyFilter st.startedLog k2 ++ keyFilter (st.pending ++ [(k2, a)]) k2
          rw [keyFilter_append, keyFilter_append, keyFilter_single_eq rfl,
            (h k2).2.1]
          simp
        · intro hcontra
          rw [hex] at hcontra
          simp at hcontra
      · have hne : ¬ ((k, a) : String × Nat).1 = k2 := fun he => hk he.symm
        refine ⟨(h k2).1, ?_, ?_⟩
        · show keyFilter (st.submittedLog ++ [(k, a)]) k2
            = keyFilter st.startedLog k2 ++ keyFilter (st.pending ++ [(k, a)]) k2
          rw [keyFilter_append, keyFilter_append, keyFilter_single_ne hne]
          simpa using (h k2).2.1
        · intro hcontra
          have hp := (h k2).2.2 hcontra
          rw [keyFilter_append, keyFilter_single_ne hne, hp]
          simp
  | finish k =>
    cases hex : keyFilter st.executing k with
    | nil =>
      have hstep : aqStep st (.finish k) = st := by
        simp [aqStep, hex]
      rw [hstep]
      exact h
    | cons p prest =>
      have hpk : p.1 = k := keyFilter_head_key hex
      have hprest : prest = [] := by
        have hlen := (h k).1
        rw [hex] at hlen
        simp only [List.length_cons] at hlen
        have h0 : prest.length = 0 := by omega
        exact List.length_eq_zero.mp h0
      cases hpend : keyFilter st.pending k with
      | nil =>
        have hstep : aqStep st (.finish k) =
            { st with executing := removeFirstPair st.executing p } := by
          simp [aqStep, hex, hpend]
        rw [hstep]
        intro k2
        by_cases hk : k2 = k
        · subst hk
          refine ⟨?_, (h k2).2.1, ?_⟩
          · show (keyFilter (removeFirstPair st.executing p) k2).length ≤ 1
            rw [keyFilter_removeFirstPair_head hex, hprest]
            simp
          · intro _
            exact hpend
        · refine ⟨?_, (h k2).2.1, ?_⟩
          · show (keyFilter (removeFirstPair st.executing p) k2).length ≤ 1
            rw [keyFilter_removeFirstPair_ne st.executing hpk hk]
            exact (h k2).1
          · intro hcontra
            rw [keyFilter_removeFirstPair_ne st.executing hpk hk] at hcontra
            exact (h k2).2.2 hcontra
      | cons q qrest =>
        have hqk : q.1 = k := keyFilter_head_key hpend
        have hstep : aqStep st (.finish k) =
            { st with
              executing := removeFirstPair st.executing p ++ [q],
              pending := removeFirstPair st.pending q,
              startedLog := st.startedLog ++ [q] } := by
          simp [aqStep, hex, hpend]
        rw [hstep]
        intro k2
        by_cases hk : k2 = k
        · subst hk
          refine ⟨?_, ?_, ?_⟩
          · show (keyFilter (removeFirstPair st.executing p ++ [q]) k2).length ≤ 1
            rw [keyFilter_append, keyFilter_removeFirstPair_head hex, hprest,
              keyFilter_single_eq hqk]
            simp
          · show keyFilter st.submittedLog k2
              = keyFilter (st.startedLog ++ [q]) k2
                ++ keyFilter (removeFirstPair st.pending q) k2
            rw [keyFilter_append, keyFilter_single_eq hqk,
              keyFilter_removeFirstPair_head hpend, (h k2).2.1, hpend]
            simp
          · intro hcontra
            rw [keyFilter_append, keyFilter_single_eq hqk] at hcontra
            simp at hcontra
        · have hqne : ¬ q.1 = k2 := by
            rw [hqk]
            exact fun he => hk he.symm
          refine ⟨?_, ?_, ?_⟩
          · show (keyFilter (removeFirstPair st.executing p ++ [q]) k2).length ≤ 1
            rw [keyFilter_append, keyFilter_removeFirstPair_ne st.executing hpk hk,
              keyFilter_single_ne hqne]
            simpa using (h k2).1
          · show keyFilter st.submittedLog k2
              = keyFilter (st.startedLog ++ [q]) k2
                ++ keyFilter (removeFirstPair st.pending q) k2
            rw [keyFilter_append, keyFilter_single_ne hqne,
              keyFilter_removeFirstPair_ne st.pending hqk hk]
            simpa using (h k2).2.1
          · intro hcontra
            rw [keyFilter_append, keyFilter_removeFirstPair_ne st.executing hpk hk,
              keyFilter_single_ne hqne] at hcontra
            simp at hcontra
            rw [keyFilter_removeFirstPair_ne st.pending hqk hk]
            exact (h k2).2.2 hcontra

theorem aqInv_run (events : List AQEvent) : aqInv (aqRun events) := by
  have hgen : ∀ (evs : List AQEvent) (st : AQState), aqInv st →
      aqInv (evs.foldl aqStep st) := by
    intro evs
    induction evs with
    | nil => intro st hst; simpa using hst
    | cons e t ih =>
      intro st hst
      simp only [List.foldl_cons]
      exact ih (aqStep st e) (aqInv_step hst e)
  exact hgen events aqInit aqInv_init

/-- C4: modelled from the spec (the queue implementation is not in
the source tree).  After any sequence of submit and finish events:
per key at most one action is executing at any instant, and the per
key submission log equals the per-key start log followed by the
still-pending actions — so actions of one key start in submission
(FIFO) order; moreover actions with different keys can be executing
simultaneously, shown by a two-key run. -/
theorem c4_action_queue_serialization_fifo :
    (∀ (events : List AQEvent) (k : String),
      (keyFilter (aqRun events).executing k).length ≤ 1 ∧
      keyFilter (aqRun events).submittedLog k =
        keyFilter (aqRun events).startedLog k ++ keyFilter (aqRun events).pending k) ∧
    (aqRun [.submit "a" 0, .submit "b" 1]).executing = [("a", 0), ("b", 1)] := by
  constructor
  · intro events k
    exact ⟨(aqInv_run events k).1, (aqInv_run events k).2.1⟩
  · rfl
